import Mathlib

/-!
# A verification of the in-memory ProductStore of `clothing-ui`

This file shallowly embeds the product CRUD route handlers of the
repository (`GET`/`POST` in the collection route, `PUT`/`DELETE` in the
`[id]` route) and proves properties of the store they share.

Modelling choices:
* JavaScript runtime values that flow through the handlers (request body
  fields) are modelled by `JSValue`; numbers are rationals (no NaN /
  infinity arise in any statement below).
* `new Date().toISOString()` timestamps are modelled by a natural-number
  clock value `now` passed to each operation; ISO-8601 string comparison
  of timestamps from a monotone clock agrees with `≤` on the clock.
* The two route modules share one global array and one counter (the
  second module re-reads `global.globalProducts`); this is one `Store`.
-/

/-- A JavaScript value as it appears in a parsed JSON request body:
`request.json()` can supply strings, numbers, booleans, `null`, arrays
(truthy non-strings with a numeric `length`), and a destructured
missing field is `undefined`.  Plain JSON objects are omitted: they are
truthy, `typeof 'object'`, their `.length` is `undefined` unless the
object has a `length` key, and no statement below depends on them. -/
inductive JSValue where
  | str (s : String)
  | num (q : ℚ)
  | bool (b : Bool)
  | null
  | undefined
  | arr (elems : List JSValue)
  deriving Repr, Inhabited

/-- JavaScript truthiness (`!v` is `!truthy v`): empty string, `0`,
`false`, `null` and `undefined` are falsy; every array is truthy,
including `[]`. -/
def JSValue.truthy : JSValue → Bool
  | .str s => s ≠ ""
  | .num q => q ≠ 0
  | .bool b => b
  | .null => false
  | .undefined => false
  | .arr _ => true

/-- `v.length > n` in JavaScript: real comparison for strings and
arrays (`Array.prototype.length`); for numbers and booleans `.length`
is `undefined` and `undefined > n` is `false`. (`null`/`undefined`
receivers would throw, but the handlers only reach `.length` after a
truthiness check.) -/
def JSValue.lengthGtB (v : JSValue) (n : Nat) : Bool :=
  match v with
  | .str s => s.length > n
  | .arr es => es.length > n
  | _ => false

/-- `typeof v === 'number' && v > 0`; the handlers test its negation. -/
def JSValue.isPosNum : JSValue → Bool
  | .num q => 0 < q
  | _ => false

/-- Is the value a string?  (The handlers never test this.) -/
def JSValue.isStr : JSValue → Bool
  | .str _ => true
  | _ => false

/-- JavaScript `a || b`. -/
def jsOr (a b : JSValue) : JSValue := if a.truthy then a else b

/-- Whitespace skipped by `parseInt`. -/
def isJsSpace (c : Char) : Bool :=
  c = ' ' || c = '\t' || c = '\n' || c = '\r' || c = '\x0b' || c = '\x0c'

/-- Value of a hexadecimal digit, if the character is one. -/
def hexDigitVal (c : Char) : Option Nat :=
  if '0' ≤ c ∧ c ≤ '9' then some (c.toNat - '0'.toNat)
  else if 'a' ≤ c ∧ c ≤ 'f' then some (c.toNat - 'a'.toNat + 10)
  else if 'A' ≤ c ∧ c ≤ 'F' then some (c.toNat - 'A'.toNat + 10)
  else none

/-- Longest leading run of decimal digits, `none` if there is none. -/
def decDigitsVal (cs : List Char) : Option Nat :=
  let ds := cs.takeWhile Char.isDigit
  if ds.isEmpty then none
  else some (ds.foldl (fun a c => 10 * a + (c.toNat - 48)) 0)

/-- Longest leading run of hexadecimal digits, `none` if there is none. -/
def hexDigitsVal (cs : List Char) : Option Nat :=
  let ds := cs.takeWhile (fun c => (hexDigitVal c).isSome)
  if ds.isEmpty then none
  else some (ds.foldl (fun a c => 16 * a + ((hexDigitVal c).getD 0)) 0)

/-- Magnitude part of `parseInt`: a `0x`/`0X` prefix switches to base 16,
otherwise the longest leading decimal-digit run is taken; trailing
characters are ignored. -/
def parseUnsigned (cs : List Char) : Option Nat :=
  match cs with
  | '0' :: x :: rest =>
    if x = 'x' ∨ x = 'X' then hexDigitsVal rest else decDigitsVal cs
  | _ => decDigitsVal cs

/-- JavaScript `parseInt(s)` (radix unspecified): skip whitespace, an
optional sign, then the leading integer; `none` models `NaN`. -/
def parseIntJS (s : String) : Option Int :=
  let cs := s.toList.dropWhile isJsSpace
  match cs with
  | '-' :: rest => (parseUnsigned rest).map (fun n => -(n : Int))
  | '+' :: rest => (parseUnsigned rest).map (fun n => (n : Int))
  | _ => (parseUnsigned cs).map (fun n => (n : Int))

/-- The destructured request body `{ name, description, price, image }`;
a field missing from the JSON body destructures to `undefined`. -/
structure Body where
  name : JSValue
  description : JSValue
  price : JSValue
  image : JSValue
  deriving Repr

/-- A record of the `globalProducts` array. -/
structure Product where
  id : Nat
  name : JSValue
  description : JSValue
  price : JSValue
  image : JSValue
  createdAt : Nat
  updatedAt : Nat
  deriving Repr, Inhabited

/-- The shared global state: the `globalProducts` array and the
`nextProductId` counter. -/
structure Store where
  products : List Product
  nextId : Nat
  deriving Repr

/-- Outcome of `POST /api/Product`: 201 with the record, or 400. -/
inductive CreateResult where
  | created (p : Product)
  | invalid (msg : String)
  deriving Repr

/-- Outcome of `PUT /api/Product/[id]`: 200, 400 `Invalid product ID`,
400 validation message, or 404. -/
inductive PutResult where
  | ok (p : Product)
  | invalidId
  | invalid (msg : String)
  | notFound
  deriving Repr

/-- Outcome of `DELETE /api/Product/[id]`. -/
inductive DeleteResult where
  | ok (p : Product)
  | invalidId
  | notFound
  deriving Repr

/-- The validation block shared verbatim by `POST` and `PUT`:
required-fields truthiness, positive-number price, then the two length
caps, in source order; `some msg` is the 400 response body. -/
def validate (b : Body) : Option String :=
  if !b.name.truthy || !b.description.truthy || !b.price.truthy then
    some "Name, description, and price are required"
  else if !b.price.isPosNum then
    some "Price must be a positive number"
  else if b.name.lengthGtB 100 then
    some "Name must be 100 characters or less"
  else if b.description.lengthGtB 500 then
    some "Description must be 500 characters or less"
  else none

/-- `GET /api/Product`: return the array. -/
def GET (s : Store) : List Product := s.products

/-- `POST /api/Product`: validate, then build the record with
`id = nextId++`, `image: image || undefined`, both timestamps `now`,
and push it. -/
def POST (b : Body) (now : Nat) (s : Store) : CreateResult × Store :=
  match validate b with
  | some msg => (.invalid msg, s)
  | none =>
    let p : Product :=
      { id := s.nextId
        name := b.name
        description := b.description
        price := b.price
        image := jsOr b.image .undefined
        createdAt := now
        updatedAt := now }
    (.created p, { products := s.products ++ [p], nextId := s.nextId + 1 })

/-- The updated copy built by `PUT`: the spread keeps `id` and
`createdAt`, the body fields and `updatedAt := now` overwrite. -/
def applyBody (b : Body) (now : Nat) (p : Product) : Product :=
  { p with
      name := b.name
      description := b.description
      price := b.price
      image := jsOr b.image .undefined
      updatedAt := now }

/-- `findIndex(p => p.id === id)` followed by in-place replacement of the
found record with its updated copy; `none` when no record matches. -/
def updateFirst (b : Body) (now : Nat) (id : Int) :
    List Product → Option (Product × List Product)
  | [] => none
  | p :: ps =>
    if (p.id : Int) = id then
      some (applyBody b now p, applyBody b now p :: ps)
    else
      match updateFirst b now id ps with
      | none => none
      | some (q, ps') => some (q, p :: ps')

/-- `findIndex(p => p.id === id)` followed by `splice(index, 1)`:
returns the removed record and the remaining array. -/
def removeFirst (id : Int) : List Product → Option (Product × List Product)
  | [] => none
  | p :: ps =>
    if (p.id : Int) = id then some (p, ps)
    else
      match removeFirst id ps with
      | none => none
      | some (q, ps') => some (q, p :: ps')

/-- `PUT /api/Product/[id]`: `parseInt` the path id (400 on NaN), then
validate the body, then find and update (404 if absent). -/
def PUT (idParam : String) (b : Body) (now : Nat) (s : Store) :
    PutResult × Store :=
  match parseIntJS idParam with
  | none => (.invalidId, s)
  | some id =>
    match validate b with
    | some msg => (.invalid msg, s)
    | none =>
      match updateFirst b now id s.products with
      | none => (.notFound, s)
      | some (p', ps) => (.ok p', { s with products := ps })

/-- `DELETE /api/Product/[id]`: `parseInt` the path id (400 on NaN),
then find and splice out the record (404 if absent); the counter is
untouched. -/
def DELETE (idParam : String) (s : Store) : DeleteResult × Store :=
  match parseIntJS idParam with
  | none => (.invalidId, s)
  | some id =>
    match removeFirst id s.products with
    | none => (.notFound, s)
    | some (p, ps) => (.ok p, { s with products := ps })

/-- The source literal `29.99`, as the reduced fraction 2999/100 (the
explicit constructor keeps it kernel-computable). -/
def seedPrice1 : ℚ := ⟨2999, 100, by decide, by decide⟩

/-- The source literal `79.99`, as the reduced fraction 7999/100. -/
def seedPrice2 : ℚ := ⟨7999, 100, by decide, by decide⟩

/-- First hard-coded seed record (timestamps from module load time). -/
def seedProduct1 (t : Nat) : Product :=
  { id := 1
    name := .str "Classic Cotton T-Shirt"
    description :=
      .str "A comfortable, breathable cotton t-shirt perfect for everyday wear."
    price := .num seedPrice1
    image := .str "https://via.placeholder.com/300x300?text=T-Shirt"
    createdAt := t
    updatedAt := t }

/-- Second hard-coded seed record. -/
def seedProduct2 (t : Nat) : Product :=
  { id := 2
    name := .str "Denim Jeans"
    description := .str "Premium quality denim jeans with a modern fit."
    price := .num seedPrice2
    image := .str "https://via.placeholder.com/300x300?text=Jeans"
    createdAt := t
    updatedAt := t }

/-- The process-start state built by the module initializers: the two
seed records and `nextProductId = 3`. -/
def initStore (t : Nat) : Store :=
  { products := [seedProduct1 t, seedProduct2 t], nextId := 3 }

/-- The spec's "empty store": no records and no id ever assigned, so the
counter is at its first value `1`. -/
def emptyStore : Store := { products := [], nextId := 1 }

/-- The ids currently in the collection, in array order. -/
def idsOf (s : Store) : List Nat := s.products.map Product.id

/-- The store invariant: ids are pairwise distinct and every id in the
collection is strictly below the counter. -/
def StoreInv (s : Store) : Prop :=
  (idsOf s).Nodup ∧ ∀ p ∈ s.products, p.id < s.nextId

instance (s : Store) : Decidable (StoreInv s) := by
  unfold StoreInv; infer_instance

/-- One inbound request, as it affects the store. -/
inductive Op where
  | create (b : Body) (now : Nat)
  | update (idParam : String) (b : Body) (now : Nat)
  | delete (idParam : String)
  | list
  deriving Repr

/-- State transition of one request. -/
def applyOp (s : Store) : Op → Store
  | .create b now => (POST b now s).2
  | .update idParam b now => (PUT idParam b now s).2
  | .delete idParam => (DELETE idParam s).2
  | .list => s

/-- Run a sequence of requests. -/
def run (s : Store) (ops : List Op) : Store := ops.foldl applyOp s

/-- The id handed out by a request, when it is a successful create. -/
def createdId (s : Store) : Op → Option Nat
  | .create b now =>
    match (POST b now s).1 with
    | .created p => some p.id
    | .invalid _ => none
  | _ => none

/-- Ids handed out by the successful creates of a request sequence, in
order. -/
def createdIds : Store → List Op → List Nat
  | _, [] => []
  | s, op :: ops =>
    match createdId s op with
    | some i => i :: createdIds (applyOp s op) ops
    | none => createdIds (applyOp s op) ops

/-! ## Helper lemmas -/

theorem seedPrice1_eq : seedPrice1 = (2999 : ℚ) / 100 := by
  rw [seedPrice1, Rat.mk'_eq_divInt, Rat.divInt_eq_div]
  norm_num

theorem seedPrice2_eq : seedPrice2 = (7999 : ℚ) / 100 := by
  rw [seedPrice2, Rat.mk'_eq_divInt, Rat.divInt_eq_div]
  norm_num

/-- A valid body used in concrete scenarios below. -/
def bodyA : Body := ⟨.str "A", .str "B", .num 10, .undefined⟩

theorem truthy_of_isPosNum (v : JSValue) (h : v.isPosNum = true) :
    v.truthy = true := by
  cases v <;> simp_all [JSValue.isPosNum, JSValue.truthy]
  intro h'
  simp [h'] at h

theorem validate_eq_none (b : Body)
    (hn : b.name.truthy = true) (hd : b.description.truthy = true)
    (hpos : b.price.isPosNum = true)
    (h100 : b.name.lengthGtB 100 = false)
    (h500 : b.description.lengthGtB 500 = false) :
    validate b = none := by
  simp [validate, hn, hd, truthy_of_isPosNum b.price hpos, hpos, h100, h500]

theorem POST_valid (b : Body) (now : Nat) (s : Store)
    (h : validate b = none) :
    POST b now s =
      (.created
        ⟨s.nextId, b.name, b.description, b.price, jsOr b.image .undefined,
          now, now⟩,
       ⟨s.products ++
          [⟨s.nextId, b.name, b.description, b.price,
             jsOr b.image .undefined, now, now⟩],
        s.nextId + 1⟩) := by
  simp [POST, h]

theorem updateFirst_eq_none_iff (b : Body) (now : Nat) (id : Int)
    (l : List Product) :
    updateFirst b now id l = none ↔ ∀ p ∈ l, (p.id : Int) ≠ id := by
  induction l with
  | nil => simp [updateFirst]
  | cons p ps ih =>
    by_cases hp : (p.id : Int) = id
    · simp [updateFirst, hp]
    · cases hps : updateFirst b now id ps with
      | none => simp_all [updateFirst, hp]
      | some q => simp_all [updateFirst, hp]

theorem removeFirst_eq_none_iff (id : Int) (l : List Product) :
    removeFirst id l = none ↔ ∀ p ∈ l, (p.id : Int) ≠ id := by
  induction l with
  | nil => simp [removeFirst]
  | cons p ps ih =>
    by_cases hp : (p.id : Int) = id
    · simp [removeFirst, hp]
    · cases hps : removeFirst id ps with
      | none => simp_all [removeFirst, hp]
      | some q => simp_all [removeFirst, hp]

theorem updateFirst_spec (b : Body) (now : Nat) (id : Int)
    (l : List Product) (p' : Product) (l' : List Product)
    (h : updateFirst b now id l = some (p', l')) :
    ∃ i, ∃ hi : i < l.length,
      ((l.get ⟨i, hi⟩).id : Int) = id ∧
      p' = applyBody b now (l.get ⟨i, hi⟩) ∧
      l' = l.set i p' := by
  induction l generalizing p' l' with
  | nil => simp [updateFirst] at h
  | cons p ps ih =>
    by_cases hp : (p.id : Int) = id
    · simp only [updateFirst, if_pos hp, Option.some.injEq, Prod.mk.injEq] at h
      exact ⟨0, by simp, by simpa [← h.1] using hp,
        by simp [← h.1], by simp [← h.2, ← h.1]⟩
    · simp only [updateFirst, if_neg hp] at h
      cases hps : updateFirst b now id ps with
      | none => simp [hps] at h
      | some q =>
        obtain ⟨q1, q2⟩ := q
        simp only [hps, Option.some.injEq, Prod.mk.injEq] at h
        obtain ⟨rfl, rfl⟩ := h
        obtain ⟨i, hi, h1, h2, h3⟩ := ih q1 q2 hps
        exact ⟨i + 1, by simpa using Nat.succ_lt_succ hi, h1, h2,
          by simp [h3]⟩

theorem removeFirst_spec (id : Int) (l : List Product) (p : Product)
    (l' : List Product) (h : removeFirst id l = some (p, l')) :
    (p.id : Int) = id ∧
    ∃ l1 l2, l = l1 ++ p :: l2 ∧ l' = l1 ++ l2 := by
  induction l generalizing l' with
  | nil => simp [removeFirst] at h
  | cons q qs ih =>
    by_cases hq : (q.id : Int) = id
    · simp only [removeFirst, if_pos hq, Option.some.injEq, Prod.mk.injEq] at h
      obtain ⟨rfl, rfl⟩ := h
      exact ⟨hq, [], qs, rfl, rfl⟩
    · simp only [removeFirst, if_neg hq] at h
      cases hqs : removeFirst id qs with
      | none => simp [hqs] at h
      | some r =>
        obtain ⟨r1, r2⟩ := r
        simp only [hqs, Option.some.injEq, Prod.mk.injEq] at h
        obtain ⟨rfl, rfl⟩ := h
        obtain ⟨h1, l1, l2, h2, h3⟩ := ih r2 hqs
        exact ⟨h1, q :: l1, l2, by simp [h2], by simp [h3]⟩

/-- A body failing the required-fields validation (empty name). -/
def badBody : Body := ⟨.str "", .str "B", .num 10, .undefined⟩

/-! ## Claim theorems -/

/-- C3: Create of `{name:"A", description:"B", price:10, image:undefined}`
on an empty store yields the product with id 1, those exact fields, image
unset and `createdAt = updatedAt`; a second Create of any valid product
yields id 2. -/
theorem C3_create_scenario (t t2 : Nat) (b2 : Body)
    (hb2 : validate b2 = none) :
    POST bodyA t emptyStore =
      (.created ⟨1, .str "A", .str "B", .num 10, .undefined, t, t⟩,
       ⟨[⟨1, .str "A", .str "B", .num 10, .undefined, t, t⟩], 2⟩) ∧
    ∃ p, (POST b2 t2 (POST bodyA t emptyStore).2).1 = .created p ∧
      p.id = 2 := by
  have h1 : validate bodyA = none := by decide
  refine ⟨by rw [POST_valid bodyA t emptyStore h1]; rfl, ?_⟩
  rw [POST_valid bodyA t emptyStore h1]
  rw [POST_valid b2 t2 _ hb2]
  exact ⟨_, rfl, rfl⟩

/-- Witness for C3 at concrete inputs. -/
theorem C3_create_scenario_witness :
    POST bodyA 0 emptyStore =
      (.created ⟨1, .str "A", .str "B", .num 10, .undefined, 0, 0⟩,
       ⟨[⟨1, .str "A", .str "B", .num 10, .undefined, 0, 0⟩], 2⟩) ∧
    ∃ p, (POST bodyA 1 (POST bodyA 0 emptyStore).2).1 = .created p ∧
      p.id = 2 :=
  C3_create_scenario 0 1 bodyA (by decide)

/-- C6: whenever Create or Update fails with a validation error, the
store (collection, records and counter) is exactly what it was before
the call. -/
theorem C6_validation_error_no_mutation (b : Body) (t : Nat) (s : Store)
    (idParam : String) (msg msg2 : String) :
    ((POST b t s).1 = .invalid msg → (POST b t s).2 = s) ∧
    ((PUT idParam b t s).1 = .invalid msg2 → (PUT idParam b t s).2 = s) := by
  constructor
  · intro h
    cases hv : validate b with
    | some m => simp [POST, hv]
    | none => simp [POST, hv] at h
  · intro h
    cases hp : parseIntJS idParam with
    | none => simp [PUT, hp]
    | some i =>
      cases hv : validate b with
      | some m => simp [PUT, hp, hv]
      | none =>
        cases hu : updateFirst b t i s.products with
        | none => simp [PUT, hp, hv, hu] at h
        | some q =>
          obtain ⟨q1, q2⟩ := q
          simp [PUT, hp, hv, hu] at h

/-- Witness for C6: a failing Create and a failing Update leave the
seeded store untouched. -/
theorem C6_validation_error_no_mutation_witness :
    (POST badBody 0 (initStore 0)).2 = initStore 0 ∧
    (PUT "1" badBody 0 (initStore 0)).2 = initStore 0 :=
  ⟨(C6_validation_error_no_mutation badBody 0 (initStore 0) "1"
      "Name, description, and price are required"
      "Name, description, and price are required").1 rfl,
   (C6_validation_error_no_mutation badBody 0 (initStore 0) "1"
      "Name, description, and price are required"
      "Name, description, and price are required").2 rfl⟩

/-- C9 fails as stated: the path id `"2abc"` is not a valid integer, yet
`parseInt` yields 2, so DELETE succeeds (removing the seed with id 2)
instead of returning 400 `Invalid product ID`. -/
theorem C9_counterexample :
    (DELETE "2abc" (initStore 0)).1 = .ok (seedProduct2 0) ∧
    (DELETE "2abc" (initStore 0)).1 ≠ .invalidId ∧
    (DELETE "2abc" (initStore 0)).2 ≠ initStore 0 := by
  refine ⟨rfl, ?_, ?_⟩
  · intro h
    rw [show (DELETE "2abc" (initStore 0)).1 = .ok (seedProduct2 0)
      from rfl] at h
    exact DeleteResult.noConfusion h
  · intro h
    have h1 : ((DELETE "2abc" (initStore 0)).2).products.length = 1 := rfl
    have h2 : (initStore 0).products.length = 2 := rfl
    rw [h] at h1
    omega

/-- C9 amended: for every id path parameter on which JavaScript
`parseInt` yields NaN (no parseable leading integer), PUT and DELETE
fail with 400 `Invalid product ID` and leave the store untouched. -/
theorem C9_nan_id_rejected (idParam : String) (b : Body) (t : Nat)
    (s : Store) (h : parseIntJS idParam = none) :
    PUT idParam b t s = (.invalidId, s) ∧
    DELETE idParam s = (.invalidId, s) := by
  constructor
  · simp [PUT, h]
  · simp [DELETE, h]

/-- Witness for the amended C9 at the path id `"abc"`. -/
theorem C9_nan_id_rejected_witness :
    PUT "abc" bodyA 0 (initStore 0) = (.invalidId, initStore 0) ∧
    DELETE "abc" (initStore 0) = (.invalidId, initStore 0) :=
  C9_nan_id_rejected "abc" bodyA 0 (initStore 0) (by decide)

/-- C4 fails as stated: with id 999 absent from the seeded store but an
invalid body, PUT returns the 400 required-fields error, not the 404
`Product not found` the claim requires regardless of body. -/
theorem C4_counterexample :
    (∀ p ∈ (initStore 0).products, p.id ≠ 999) ∧
    (PUT "999" badBody 0 (initStore 0)).1 =
      .invalid "Name, description, and price are required" ∧
    (PUT "999" badBody 0 (initStore 0)).1 ≠ .notFound := by
  refine ⟨by decide, rfl, ?_⟩
  intro h
  rw [show (PUT "999" badBody 0 (initStore 0)).1 =
    .invalid "Name, description, and price are required" from rfl] at h
  exact PutResult.noConfusion h

/-- C4 amended: Update with an id that matches no record fails with 404
`Product not found` provided the body passes validation (body
validation runs first and takes precedence when it fails). -/
theorem C4_unknown_id_notFound (idParam : String) (i : Int) (b : Body)
    (t : Nat) (s : Store)
    (hp : parseIntJS idParam = some i)
    (hv : validate b = none)
    (hno : ∀ p ∈ s.products, (p.id : Int) ≠ i) :
    PUT idParam b t s = (.notFound, s) := by
  have hu : updateFirst b t i s.products = none :=
    (updateFirst_eq_none_iff b t i s.products).mpr hno
  simp [PUT, hp, hv, hu]

/-- Witness for the amended C4: a valid-body update of the unknown id
999 on the seeded store returns 404 and leaves the store unchanged. -/
theorem C4_unknown_id_notFound_witness :
    PUT "999" bodyA 0 (initStore 0) = (.notFound, initStore 0) :=
  C4_unknown_id_notFound "999" 999 bodyA 0 (initStore 0)
    (by decide) (by decide) (by decide)

theorem str_truthy (s : String) (h : s ≠ "") :
    (JSValue.str s).truthy = true := by
  simp [JSValue.truthy, h]

theorem num_isPosNum (q : ℚ) (h : 0 < q) :
    (JSValue.num q).isPosNum = true := by
  simp [JSValue.isPosNum, h]

theorem ne_empty_of_length_pos (s : String) (h : 0 < s.length) :
    s ≠ "" := by
  intro he
  rw [he] at h
  simp at h

theorem validate_name_too_long (b : Body)
    (hn : b.name.truthy = true) (hd : b.description.truthy = true)
    (hpos : b.price.isPosNum = true)
    (h101 : b.name.lengthGtB 100 = true) :
    validate b = some "Name must be 100 characters or less" := by
  simp [validate, hn, hd, truthy_of_isPosNum b.price hpos, hpos, h101]

theorem validate_desc_too_long (b : Body)
    (hn : b.name.truthy = true) (hd : b.description.truthy = true)
    (hpos : b.price.isPosNum = true)
    (h100 : b.name.lengthGtB 100 = false)
    (h501 : b.description.lengthGtB 500 = true) :
    validate b = some "Description must be 500 characters or less" := by
  simp [validate, hn, hd, truthy_of_isPosNum b.price hpos, hpos, h100, h501]

theorem POST_invalid (b : Body) (now : Nat) (s : Store) (msg : String)
    (hv : validate b = some msg) :
    (POST b now s).1 = .invalid msg := by
  simp [POST, hv]

theorem PUT_invalid (idParam : String) (i : Int) (b : Body) (now : Nat)
    (s : Store) (msg : String)
    (hp : parseIntJS idParam = some i) (hv : validate b = some msg) :
    (PUT idParam b now s).1 = .invalid msg := by
  simp [PUT, hp, hv]

theorem PUT_found_ok (idParam : String) (i : Int) (b : Body) (now : Nat)
    (s : Store)
    (hp : parseIntJS idParam = some i) (hv : validate b = none)
    (hfound : ∃ p ∈ s.products, (p.id : Int) = i) :
    ∃ p', (PUT idParam b now s).1 = .ok p' ∧
      p'.name = b.name ∧ p'.description = b.description ∧
      p'.price = b.price := by
  cases hu : updateFirst b now i s.products with
  | none =>
    obtain ⟨p, hm, hi⟩ := hfound
    exact absurd hi
      ((updateFirst_eq_none_iff b now i s.products).mp hu p hm)
  | some pr =>
    obtain ⟨p', l'⟩ := pr
    obtain ⟨j, hj, _, hap, _⟩ :=
      updateFirst_spec b now i s.products p' l' hu
    exact ⟨p', by simp [PUT, hp, hv, hu], by simp [hap, applyBody],
      by simp [hap, applyBody], by simp [hap, applyBody]⟩

/-- C5: Create and Update succeed with a 100-character name or a
500-character description (other fields valid) and fail with the
field-specific length error at 101 / 501 characters. -/
theorem C5_length_boundaries (n100 n101 nOk d500 d501 dOk : String)
    (q : ℚ) (img : JSValue) (t : Nat) (s : Store)
    (idParam : String) (i : Int)
    (h100 : n100.length = 100) (h101 : n101.length = 101)
    (h500 : d500.length = 500) (h501 : d501.length = 501)
    (hnOk : nOk ≠ "") (hnOkLen : nOk.length ≤ 100)
    (hdOk : dOk ≠ "") (hdOkLen : dOk.length ≤ 500)
    (hq : 0 < q)
    (hp : parseIntJS idParam = some i)
    (hfound : ∃ p ∈ s.products, (p.id : Int) = i) :
    (∃ p, (POST ⟨.str n100, .str dOk, .num q, img⟩ t s).1 = .created p) ∧
    (POST ⟨.str n101, .str dOk, .num q, img⟩ t s).1 =
      .invalid "Name must be 100 characters or less" ∧
    (∃ p, (POST ⟨.str nOk, .str d500, .num q, img⟩ t s).1 = .created p) ∧
    (POST ⟨.str nOk, .str d501, .num q, img⟩ t s).1 =
      .invalid "Description must be 500 characters or less" ∧
    (∃ p, (PUT idParam ⟨.str n100, .str dOk, .num q, img⟩ t s).1 = .ok p) ∧
    (PUT idParam ⟨.str n101, .str dOk, .num q, img⟩ t s).1 =
      .invalid "Name must be 100 characters or less" ∧
    (∃ p, (PUT idParam ⟨.str nOk, .str d500, .num q, img⟩ t s).1 = .ok p) ∧
    (PUT idParam ⟨.str nOk, .str d501, .num q, img⟩ t s).1 =
      .invalid "Description must be 500 characters or less" := by
  have hn100 : n100 ≠ "" := ne_empty_of_length_pos n100 (by omega)
  have hn101 : n101 ≠ "" := ne_empty_of_length_pos n101 (by omega)
  have hd500 : d500 ≠ "" := ne_empty_of_length_pos d500 (by omega)
  have hd501 : d501 ≠ "" := ne_empty_of_length_pos d501 (by omega)
  have hv1 : validate ⟨.str n100, .str dOk, .num q, img⟩ = none :=
    validate_eq_none _ (str_truthy _ hn100) (str_truthy _ hdOk)
      (num_isPosNum q hq)
      (by simp [JSValue.lengthGtB, h100])
      (by simp [JSValue.lengthGtB]; omega)
  have hv2 : validate ⟨.str n101, .str dOk, .num q, img⟩ =
      some "Name must be 100 characters or less" :=
    validate_name_too_long _ (str_truthy _ hn101) (str_truthy _ hdOk)
      (num_isPosNum q hq) (by simp [JSValue.lengthGtB, h101])
  have hv3 : validate ⟨.str nOk, .str d500, .num q, img⟩ = none :=
    validate_eq_none _ (str_truthy _ hnOk) (str_truthy _ hd500)
      (num_isPosNum q hq)
      (by simp [JSValue.lengthGtB]; omega)
      (by simp [JSValue.lengthGtB, h500])
  have hv4 : validate ⟨.str nOk, .str d501, .num q, img⟩ =
      some "Description must be 500 characters or less" :=
    validate_desc_too_long _ (str_truthy _ hnOk) (str_truthy _ hd501)
      (num_isPosNum q hq)
      (by simp [JSValue.lengthGtB]; omega)
      (by simp [JSValue.lengthGtB, h501])
  refine ⟨⟨_, by rw [POST_valid _ t s hv1]⟩, POST_invalid _ t s _ hv2,
    ⟨_, by rw [POST_valid _ t s hv3]⟩, POST_invalid _ t s _ hv4,
    ?_, PUT_invalid idParam i _ t s _ hp hv2,
    ?_, PUT_invalid idParam i _ t s _ hp hv4⟩
  · obtain ⟨p', h1, -⟩ := PUT_found_ok idParam i _ t s hp hv1 hfound
    exact ⟨p', h1⟩
  · obtain ⟨p', h1, -⟩ := PUT_found_ok idParam i _ t s hp hv3 hfound
    exact ⟨p', h1⟩

/-- An all-`a` string of the given length, for boundary witnesses. -/
def strOfLen (n : Nat) : String := String.mk (List.replicate n 'a')

theorem strOfLen_length (n : Nat) : (strOfLen n).length = n := by
  show (List.replicate n 'a').length = n
  simp

/-- Witness for C5 at concrete 100/101/500/501-character strings against
the seeded store, updating the record with id 1. -/
theorem C5_length_boundaries_witness :
    (∃ p, (POST ⟨.str (strOfLen 100), .str "B", .num 10, .undefined⟩ 0
        (initStore 0)).1 = .created p) ∧
    (POST ⟨.str (strOfLen 101), .str "B", .num 10, .undefined⟩ 0
        (initStore 0)).1 =
      .invalid "Name must be 100 characters or less" ∧
    (∃ p, (POST ⟨.str "A", .str (strOfLen 500), .num 10, .undefined⟩ 0
        (initStore 0)).1 = .created p) ∧
    (POST ⟨.str "A", .str (strOfLen 501), .num 10, .undefined⟩ 0
        (initStore 0)).1 =
      .invalid "Description must be 500 characters or less" ∧
    (∃ p, (PUT "1" ⟨.str (strOfLen 100), .str "B", .num 10, .undefined⟩ 0
        (initStore 0)).1 = .ok p) ∧
    (PUT "1" ⟨.str (strOfLen 101), .str "B", .num 10, .undefined⟩ 0
        (initStore 0)).1 =
      .invalid "Name must be 100 characters or less" ∧
    (∃ p, (PUT "1" ⟨.str "A", .str (strOfLen 500), .num 10, .undefined⟩ 0
        (initStore 0)).1 = .ok p) ∧
    (PUT "1" ⟨.str "A", .str (strOfLen 501), .num 10, .undefined⟩ 0
        (initStore 0)).1 =
      .invalid "Description must be 500 characters or less" :=
  C5_length_boundaries (strOfLen 100) (strOfLen 101) "A"
    (strOfLen 500) (strOfLen 501) "B" 10 .undefined 0 (initStore 0) "1" 1
    (strOfLen_length 100) (strOfLen_length 101) (strOfLen_length 500)
    (strOfLen_length 501) (by decide) (by decide) (by decide) (by decide)
    (by decide) (by decide)
    ⟨seedProduct1 0, List.mem_cons_self _ _, by decide⟩

/-- C10 fails as stated: a 101-element JSON array as name is a truthy
non-string, yet `Array.prototype.length` is numeric, so the length
check fires and both Create and Update return the 400 name-length
error instead of succeeding; nothing is stored. -/
theorem C10_counterexample :
    (JSValue.arr (List.replicate 101 .null)).truthy = true ∧
    (JSValue.arr (List.replicate 101 .null)).isStr = false ∧
    (POST ⟨.arr (List.replicate 101 .null), .str "B", .num 10, .undefined⟩
        0 emptyStore).1 =
      .invalid "Name must be 100 characters or less" ∧
    (POST ⟨.arr (List.replicate 101 .null), .str "B", .num 10, .undefined⟩
        0 emptyStore).2 = emptyStore ∧
    (PUT "1" ⟨.arr (List.replicate 101 .null), .str "B", .num 10,
        .undefined⟩ 0 (initStore 0)).1 =
      .invalid "Name must be 100 characters or less" :=
  ⟨rfl, rfl, rfl, rfl, rfl⟩

/-- C10 amended: validation never checks that name or description are
strings — any truthy non-string values on which the `.length` check
against the field's cap does not fire (numbers and booleans, whose
`.length` is `undefined`; arrays of at most 100 / 500 elements) pass
validation with a valid positive price, and both Create and Update
store them as-is. -/
theorem C10_no_string_type_check (name desc img : JSValue) (q : ℚ)
    (t : Nat) (s : Store) (idParam : String) (i : Int)
    (hn : name.truthy = true) (hd : desc.truthy = true)
    (_hns : name.isStr = false) (_hds : desc.isStr = false)
    (h100 : name.lengthGtB 100 = false)
    (h500 : desc.lengthGtB 500 = false)
    (hq : 0 < q)
    (hp : parseIntJS idParam = some i)
    (hfound : ∃ p ∈ s.products, (p.id : Int) = i) :
    (∃ p, (POST ⟨name, desc, .num q, img⟩ t s).1 = .created p ∧
      p.name = name ∧ p.description = desc) ∧
    (∃ p, (PUT idParam ⟨name, desc, .num q, img⟩ t s).1 = .ok p ∧
      p.name = name ∧ p.description = desc) := by
  have hv : validate ⟨name, desc, .num q, img⟩ = none :=
    validate_eq_none _ hn hd (num_isPosNum q hq) h100 h500
  constructor
  · exact ⟨_, by rw [POST_valid _ t s hv], rfl, rfl⟩
  · obtain ⟨p', h1, h2, h3, -⟩ := PUT_found_ok idParam i _ t s hp hv hfound
    exact ⟨p', h1, h2, h3⟩

/-- Witness for the amended C10: a 100-element array as name and the
number 456 as description are accepted and stored by both Create and
Update. -/
theorem C10_no_string_type_check_witness :
    (∃ p, (POST ⟨.arr (List.replicate 100 .null), .num 456, .num 10,
        .undefined⟩ 0 (initStore 0)).1 = .created p ∧
      p.name = .arr (List.replicate 100 .null) ∧
      p.description = .num 456) ∧
    (∃ p, (PUT "1" ⟨.arr (List.replicate 100 .null), .num 456, .num 10,
        .undefined⟩ 0 (initStore 0)).1 = .ok p ∧
      p.name = .arr (List.replicate 100 .null) ∧
      p.description = .num 456) :=
  C10_no_string_type_check (.arr (List.replicate 100 .null)) (.num 456)
    .undefined 10 0 (initStore 0) "1" 1 rfl (by decide) rfl (by decide)
    (by decide) (by decide) (by decide) (by decide)
    ⟨seedProduct1 0, List.mem_cons_self _ _, by decide⟩

/-- C7: a successful Update changes only the found record's body fields
and `updatedAt` (set to the call's clock value): its `id` and
`createdAt` are preserved, `updatedAt` does not go backwards when the
clock is monotone, and every other record and the counter are left
unchanged. -/
theorem C7_update_frame (idParam : String) (b : Body) (t : Nat)
    (s : Store) (p' : Product) (s' : Store)
    (h : PUT idParam b t s = (.ok p', s')) :
    s'.nextId = s.nextId ∧
    p'.name = b.name ∧ p'.description = b.description ∧
    p'.price = b.price ∧ p'.image = jsOr b.image .undefined ∧
    p'.updatedAt = t ∧
    ∃ i, ∃ hi : i < s.products.length,
      p'.id = (s.products.get ⟨i, hi⟩).id ∧
      p'.createdAt = (s.products.get ⟨i, hi⟩).createdAt ∧
      ((s.products.get ⟨i, hi⟩).updatedAt ≤ t →
        (s.products.get ⟨i, hi⟩).updatedAt ≤ p'.updatedAt) ∧
      s'.products = s.products.set i p' ∧
      ∀ j, j ≠ i → s'.products[j]? = s.products[j]? := by
  cases hp : parseIntJS idParam with
  | none => simp [PUT, hp] at h
  | some i =>
    cases hv : validate b with
    | some m => simp [PUT, hp, hv] at h
    | none =>
      cases hu : updateFirst b t i s.products with
      | none => simp [PUT, hp, hv, hu] at h
      | some pr =>
        obtain ⟨q1, q2⟩ := pr
        have hPUT : PUT idParam b t s = (.ok q1, ⟨q2, s.nextId⟩) := by
          simp [PUT, hp, hv, hu]
        rw [hPUT] at h
        have h1 : PutResult.ok q1 = PutResult.ok p' :=
          congrArg Prod.fst h
        have h2 : (⟨q2, s.nextId⟩ : Store) = s' := congrArg Prod.snd h
        have hq : q1 = p' := by injection h1
        subst hq
        subst h2
        obtain ⟨i0, hi0, hid, hap, hset⟩ :=
          updateFirst_spec b t i s.products q1 q2 hu
        refine ⟨rfl, by simp [hap, applyBody],
          by simp [hap, applyBody], by simp [hap, applyBody],
          by simp [hap, applyBody], by simp [hap, applyBody],
          i0, hi0, by simp [hap, applyBody], by simp [hap, applyBody],
          ?_, ?_, ?_⟩
        · intro hmono
          have hupd : q1.updatedAt = t := by simp [hap, applyBody]
          rw [hupd]
          exact hmono
        · exact hset
        · intro j hj
          rw [hset]
          exact List.getElem?_set_ne (fun he => hj he.symm)

/-- Witness for C7: updating id 1 of the seeded store with `bodyA` at
clock 5. -/
theorem C7_update_frame_witness :
    ((PUT "1" bodyA 5 (initStore 0)).2).nextId = (initStore 0).nextId ∧
    (⟨1, .str "A", .str "B", .num 10, .undefined, 0, 5⟩ : Product).name =
      bodyA.name ∧
    (⟨1, .str "A", .str "B", .num 10, .undefined, 0, 5⟩ :
        Product).description = bodyA.description ∧
    (⟨1, .str "A", .str "B", .num 10, .undefined, 0, 5⟩ : Product).price =
      bodyA.price ∧
    (⟨1, .str "A", .str "B", .num 10, .undefined, 0, 5⟩ : Product).image =
      jsOr bodyA.image .undefined ∧
    (⟨1, .str "A", .str "B", .num 10, .undefined, 0, 5⟩ :
        Product).updatedAt = 5 ∧
    ∃ i, ∃ hi : i < (initStore 0).products.length,
      (⟨1, .str "A", .str "B", .num 10, .undefined, 0, 5⟩ : Product).id =
        ((initStore 0).products.get ⟨i, hi⟩).id ∧
      (⟨1, .str "A", .str "B", .num 10, .undefined, 0, 5⟩ :
          Product).createdAt =
        ((initStore 0).products.get ⟨i, hi⟩).createdAt ∧
      (((initStore 0).products.get ⟨i, hi⟩).updatedAt ≤ 5 →
        ((initStore 0).products.get ⟨i, hi⟩).updatedAt ≤
          (⟨1, .str "A", .str "B", .num 10, .undefined, 0, 5⟩ :
            Product).updatedAt) ∧
      ((PUT "1" bodyA 5 (initStore 0)).2).products =
        (initStore 0).products.set i
          ⟨1, .str "A", .str "B", .num 10, .undefined, 0, 5⟩ ∧
      ∀ j, j ≠ i →
        ((PUT "1" bodyA 5 (initStore 0)).2).products[j]? =
          (initStore 0).products[j]? :=
  C7_update_frame "1" bodyA 5 (initStore 0)
    ⟨1, .str "A", .str "B", .num 10, .undefined, 0, 5⟩
    (PUT "1" bodyA 5 (initStore 0)).2 rfl

/-- C8: a successful Delete removes exactly the record with the parsed
id and returns its prior value; with distinct ids in the store (the
invariant of reachable states), the listing afterwards never includes
that id and a second Delete of the same path fails with 404. -/
theorem C8_delete (idParam : String) (i : Int) (s : Store) (p : Product)
    (s' : Store)
    (hp : parseIntJS idParam = some i)
    (hnd : (idsOf s).Nodup)
    (h : DELETE idParam s = (.ok p, s')) :
    (p.id : Int) = i ∧ p ∈ s.products ∧
    (∃ l1 l2, s.products = l1 ++ p :: l2 ∧ s'.products = l1 ++ l2) ∧
    s'.nextId = s.nextId ∧
    (∀ q ∈ GET s', q.id ≠ p.id) ∧
    DELETE idParam s' = (.notFound, s') := by
  cases hr : removeFirst i s.products with
  | none => simp [DELETE, hp, hr] at h
  | some pr =>
    obtain ⟨p0, ps⟩ := pr
    have hDEL : DELETE idParam s = (.ok p0, ⟨ps, s.nextId⟩) := by
      simp [DELETE, hp, hr]
    rw [hDEL] at h
    have h1 : DeleteResult.ok p0 = DeleteResult.ok p :=
      congrArg Prod.fst h
    have h2 : (⟨ps, s.nextId⟩ : Store) = s' := congrArg Prod.snd h
    have hq : p0 = p := by injection h1
    subst hq
    subst h2
    obtain ⟨hid, l1, l2, hdecomp, hrest⟩ :=
      removeFirst_spec i s.products p0 ps hr
    have hnotin : ∀ q ∈ l1 ++ l2, q.id ≠ p0.id := by
      have hmap : (idsOf s).Nodup := hnd
      rw [idsOf, hdecomp] at hmap
      simp only [List.map_append, List.map_cons] at hmap
      have := List.nodup_middle.mp hmap
      rw [List.nodup_cons] at this
      intro q hq hqe
      exact this.1 (by
        rw [← List.map_append] at this ⊢
        exact hqe ▸ List.mem_map_of_mem Product.id hq)
    refine ⟨hid, by rw [hdecomp]; simp, ⟨l1, l2, hdecomp, hrest⟩, rfl,
      ?_, ?_⟩
    · intro q hq
      exact hnotin q (by rwa [GET, hrest] at hq)
    · have hnone : removeFirst i (l1 ++ l2) = none := by
        rw [removeFirst_eq_none_iff]
        intro q hq hqe
        exact hnotin q hq (by
          have : (q.id : Int) = (p0.id : Int) := by rw [hqe, hid]
          exact_mod_cast this)
      have : removeFirst i ps = none := by rw [hrest]; exact hnone
      simp [DELETE, hp, this]

/-- Witness for C8: deleting id 2 from the seeded store. -/
theorem C8_delete_witness :
    ((seedProduct2 0).id : Int) = 2 ∧
    seedProduct2 0 ∈ (initStore 0).products ∧
    (∃ l1 l2, (initStore 0).products = l1 ++ seedProduct2 0 :: l2 ∧
      ((DELETE "2" (initStore 0)).2).products = l1 ++ l2) ∧
    ((DELETE "2" (initStore 0)).2).nextId = (initStore 0).nextId ∧
    (∀ q ∈ GET (DELETE "2" (initStore 0)).2,
      q.id ≠ (seedProduct2 0).id) ∧
    DELETE "2" (DELETE "2" (initStore 0)).2 =
      (.notFound, (DELETE "2" (initStore 0)).2) :=
  C8_delete "2" 2 (initStore 0) (seedProduct2 0)
    (DELETE "2" (initStore 0)).2 (by decide) (by decide) rfl

theorem updateFirst_map_id (b : Body) (now : Nat) (id : Int)
    (l : List Product) (p' : Product) (l' : List Product)
    (h : updateFirst b now id l = some (p', l')) :
    l'.map Product.id = l.map Product.id := by
  induction l generalizing p' l' with
  | nil => simp [updateFirst] at h
  | cons p ps ih =>
    by_cases hp : (p.id : Int) = id
    · simp only [updateFirst, if_pos hp, Option.some.injEq,
        Prod.mk.injEq] at h
      rw [← h.2]
      simp [applyBody]
    · simp only [updateFirst, if_neg hp] at h
      cases hps : updateFirst b now id ps with
      | none => simp [hps] at h
      | some q =>
        obtain ⟨q1, q2⟩ := q
        simp only [hps, Option.some.injEq, Prod.mk.injEq] at h
        obtain ⟨rfl, rfl⟩ := h
        simp [ih q1 q2 hps]

theorem applyOp_nextId_mono (s : Store) (op : Op) :
    s.nextId ≤ (applyOp s op).nextId := by
  cases op with
  | create b now =>
    cases hv : validate b with
    | some m => simp [applyOp, POST, hv]
    | none => simp [applyOp, POST, hv]
  | update idParam b now =>
    cases hp : parseIntJS idParam with
    | none => simp [applyOp, PUT, hp]
    | some i =>
      cases hv : validate b with
      | some m => simp [applyOp, PUT, hp, hv]
      | none =>
        cases hu : updateFirst b now i s.products with
        | none => simp [applyOp, PUT, hp, hv, hu]
        | some pr =>
          obtain ⟨q1, q2⟩ := pr
          simp [applyOp, PUT, hp, hv, hu]
  | delete idParam =>
    cases hp : parseIntJS idParam with
    | none => simp [applyOp, DELETE, hp]
    | some i =>
      cases hr : removeFirst i s.products with
      | none => simp [applyOp, DELETE, hp, hr]
      | some pr =>
        obtain ⟨p0, ps⟩ := pr
        simp [applyOp, DELETE, hp, hr]
  | list => simp [applyOp]

theorem run_nextId_mono (ops : List Op) (s : Store) :
    s.nextId ≤ (run s ops).nextId := by
  induction ops generalizing s with
  | nil => simp [run]
  | cons op ops ih =>
    calc s.nextId ≤ (applyOp s op).nextId := applyOp_nextId_mono s op
      _ ≤ (run (applyOp s op) ops).nextId := ih (applyOp s op)

theorem storeInv_applyOp (s : Store) (op : Op) (h : StoreInv s) :
    StoreInv (applyOp s op) := by
  obtain ⟨hnd, hlt⟩ := h
  cases op with
  | create b now =>
    cases hv : validate b with
    | some m => simpa [applyOp, POST, hv] using ⟨hnd, hlt⟩
    | none =>
      have hstate : applyOp s (Op.create b now) =
          ⟨s.products ++
            [(⟨s.nextId, b.name, b.description, b.price,
               jsOr b.image .undefined, now, now⟩ : Product)],
            s.nextId + 1⟩ := by
        rw [applyOp, POST_valid b now s hv]
      rw [hstate]
      constructor
      · show ((s.products ++
          [(⟨s.nextId, b.name, b.description, b.price,
             jsOr b.image .undefined, now, now⟩ : Product)]).map
            Product.id).Nodup
        rw [List.map_append, List.nodup_append]
        refine ⟨hnd, by simp, ?_⟩
        intro x hx
        simp only [List.map_cons, List.map_nil, List.mem_singleton]
        intro he
        obtain ⟨p, hpm, hpe⟩ := List.mem_map.mp hx
        have := hlt p hpm
        omega
      · intro p hp
        show p.id < s.nextId + 1
        rcases List.mem_append.mp hp with hl | hr
        · exact Nat.lt_succ_of_lt (hlt p hl)
        · rw [List.mem_singleton.mp hr]
          exact Nat.lt_succ_self _
  | update idParam b now =>
    cases hp : parseIntJS idParam with
    | none => simpa [applyOp, PUT, hp] using ⟨hnd, hlt⟩
    | some i =>
      cases hv : validate b with
      | some m => simpa [applyOp, PUT, hp, hv] using ⟨hnd, hlt⟩
      | none =>
        cases hu : updateFirst b now i s.products with
        | none => simpa [applyOp, PUT, hp, hv, hu] using ⟨hnd, hlt⟩
        | some pr =>
          obtain ⟨q1, q2⟩ := pr
          have hmap := updateFirst_map_id b now i s.products q1 q2 hu
          have hstate : applyOp s (.update idParam b now) =
              ⟨q2, s.nextId⟩ := by
            simp [applyOp, PUT, hp, hv, hu]
          rw [hstate]
          constructor
          · show (q2.map Product.id).Nodup
            rw [hmap]
            exact hnd
          · intro p hp2
            have : p.id ∈ q2.map Product.id := List.mem_map_of_mem _ hp2
            rw [hmap] at this
            obtain ⟨q, hqm, hqe⟩ := List.mem_map.mp this
            exact hqe ▸ hlt q hqm
  | delete idParam =>
    cases hp : parseIntJS idParam with
    | none => simpa [applyOp, DELETE, hp] using ⟨hnd, hlt⟩
    | some i =>
      cases hr : removeFirst i s.products with
      | none => simpa [applyOp, DELETE, hp, hr] using ⟨hnd, hlt⟩
      | some pr =>
        obtain ⟨p0, ps⟩ := pr
        obtain ⟨-, l1, l2, hdec, hrest⟩ :=
          removeFirst_spec i s.products p0 ps hr
        have hstate : applyOp s (.delete idParam) = ⟨ps, s.nextId⟩ := by
          simp [applyOp, DELETE, hp, hr]
        rw [hstate]
        have hsub : ps.Sublist s.products := by
          rw [hdec, hrest]
          exact List.Sublist.append_left (List.sublist_cons_self p0 l2) l1
        constructor
        · show (ps.map Product.id).Nodup
          exact hnd.sublist (hsub.map Product.id)
        · intro p hp2
          exact hlt p (hsub.mem hp2)
  | list => exact ⟨hnd, hlt⟩

theorem storeInv_run (ops : List Op) (s : Store) (h : StoreInv s) :
    StoreInv (run s ops) := by
  induction ops generalizing s with
  | nil => exact h
  | cons op ops ih => exact ih (applyOp s op) (storeInv_applyOp s op h)

theorem storeInv_initStore (t : Nat) : StoreInv (initStore t) := by
  constructor
  · show ([1, 2] : List Nat).Nodup
    decide
  · intro p hp
    rcases List.mem_cons.mp hp with h1 | h2
    · rw [h1]
      exact (by decide : (1 : Nat) < 3)
    · rw [List.mem_singleton.mp h2]
      exact (by decide : (2 : Nat) < 3)

theorem createdId_eq (s : Store) (op : Op) (j : Nat)
    (h : createdId s op = some j) :
    j = s.nextId ∧ (applyOp s op).nextId = s.nextId + 1 := by
  cases op with
  | create b now =>
    cases hv : validate b with
    | some m => simp [createdId, POST, hv] at h
    | none =>
      rw [createdId] at h
      rw [POST_valid b now s hv] at h
      simp only [Option.some.injEq] at h
      constructor
      · rw [← h]
      · rw [applyOp]
        rw [POST_valid b now s hv]
  | update idParam b now => simp [createdId] at h
  | delete idParam => simp [createdId] at h
  | list => simp [createdId] at h

theorem createdIds_lower_bound (ops : List Op) (s : Store) (j : Nat)
    (h : j ∈ createdIds s ops) : s.nextId ≤ j := by
  induction ops generalizing s with
  | nil => simp [createdIds] at h
  | cons op ops ih =>
    rw [createdIds] at h
    cases hc : createdId s op with
    | none =>
      rw [hc] at h
      calc s.nextId ≤ (applyOp s op).nextId := applyOp_nextId_mono s op
        _ ≤ j := ih (applyOp s op) h
    | some i =>
      rw [hc] at h
      rcases List.mem_cons.mp h with h1 | h2
      · rw [h1, (createdId_eq s op i hc).1]
      · obtain ⟨h3, h4⟩ := createdId_eq s op i hc
        have := ih (applyOp s op) h2
        omega

theorem createdIds_pairwise (ops : List Op) (s : Store) :
    (createdIds s ops).Pairwise (· < ·) := by
  induction ops generalizing s with
  | nil => simp [createdIds]
  | cons op ops ih =>
    rw [createdIds]
    cases hc : createdId s op with
    | none => exact ih (applyOp s op)
    | some i =>
      rw [List.pairwise_cons]
      refine ⟨?_, ih (applyOp s op)⟩
      intro j hj
      obtain ⟨h1, h2⟩ := createdId_eq s op i hc
      have := createdIds_lower_bound ops (applyOp s op) j hj
      omega

theorem not_created_of_mem (ops : List Op) (s : Store) (d : Nat)
    (hinv : StoreInv s) (hd : d ∈ idsOf s) : d ∉ createdIds s ops := by
  intro hmem
  obtain ⟨p, hpm, hpe⟩ := List.mem_map.mp hd
  have hlt : d < s.nextId := hpe ▸ hinv.2 p hpm
  have := createdIds_lower_bound ops s d hmem
  omega

theorem createdIds_upper_bound (ops : List Op) (s : Store) (j : Nat)
    (h : j ∈ createdIds s ops) : j < (run s ops).nextId := by
  induction ops generalizing s with
  | nil => simp [createdIds] at h
  | cons op ops ih =>
    rw [createdIds] at h
    show j < (run (applyOp s op) ops).nextId
    cases hc : createdId s op with
    | none =>
      rw [hc] at h
      exact ih (applyOp s op) h
    | some i =>
      rw [hc] at h
      rcases List.mem_cons.mp h with h1 | h2
      · obtain ⟨he, hn⟩ := createdId_eq s op i hc
        have := run_nextId_mono ops (applyOp s op)
        omega
      · exact ih (applyOp s op) h2

/-- C1: in every reachable store state the product ids are pairwise
distinct and all strictly below the counter; the ids handed out by
successful Creates strictly increase over any request sequence and stay
strictly below the final counter; and any id present in a reachable
state (in particular one about to be removed by Delete) is never handed
out by a later Create. -/
theorem C1_id_uniqueness (t : Nat) (ops ops2 : List Op) (d : Nat) :
    StoreInv (run (initStore t) ops) ∧
    (createdIds (initStore t) ops).Pairwise (· < ·) ∧
    (∀ j ∈ createdIds (initStore t) ops,
      j < (run (initStore t) ops).nextId) ∧
    (d ∈ idsOf (run (initStore t) ops) →
      d ∉ createdIds (run (initStore t) ops) ops2) := by
  refine ⟨storeInv_run ops (initStore t) (storeInv_initStore t),
    createdIds_pairwise ops (initStore t),
    fun j hj => createdIds_upper_bound ops (initStore t) j hj, ?_⟩
  intro hd
  exact not_created_of_mem ops2 (run (initStore t) ops) d
    (storeInv_run ops (initStore t) (storeInv_initStore t)) hd

/-- Witness for C1: the seed id 1 is present at process start and is not
handed out again by a subsequent Create (which returns id 3). -/
theorem C1_id_uniqueness_witness :
    1 ∈ idsOf (run (initStore 0) []) ∧
    1 ∉ createdIds (run (initStore 0) []) [Op.create bodyA 0] :=
  ⟨by decide,
    (C1_id_uniqueness 0 [] [Op.create bodyA 0] 1).2.2.2 (by decide)⟩
